import Mathlib

/-!
Verification development for the webhook-driven GitHub issue bot.

The definitions below are a shallow embedding of the core components:

- `LoopPrevention` (src/src/webhook/loop-prevention.ts): the event/issue gate
  with its two in-memory tracking structures,
- `MentionDetector` (mention detector module shipped with loop-prevention.ts):
  regex-based mention detection,
- `TokenCache` (github/token-cache.ts): the margin-aware credential cache,
- `WebhookHandler` (src/src/webhook/handler.ts): the decision sequencing of
  `processIssue`, `processIssueWithConversation` and the synchronous segments
  of the two event handlers up to their first `await`.

JavaScript `Map` and `Set` are modelled as insertion-ordered association
lists, `Date.now()` as an explicit integer-millisecond argument, promises of
collaborator calls as an `Outcome` parameter, and `try/catch` as explicit
short-circuiting.  Machine numbers stay exact here: every quantity involved
(timestamps, counts) is far below 2^53, where JavaScript number arithmetic on
integers is exact.
-/

/-- Word used by the result of `LoopPrevention.check` (loop-prevention.ts lines 6-9). -/
inductive LoopReason where
  | bot_author
  | recent_response
  | duplicate_event
  deriving DecidableEq

/-- Result record of `LoopPrevention.check` (loop-prevention.ts lines 6-9):
`reason` is optional exactly as in the source. -/
structure LoopCheckResult where
  shouldIgnore : Bool
  reason : Option LoopReason
  deriving DecidableEq

/-- Entry of the `recentResponses` map (loop-prevention.ts lines 11-15). -/
structure RecentResponse where
  issueNumber : Nat
  timestamp : Int
  eventId : String
  deriving DecidableEq

/-- State of a `LoopPrevention` instance (loop-prevention.ts lines 17-34).
`recentResponses` models the JS `Map` as an insertion-ordered association
list; `processedEvents` models the JS `Set` as an insertion-ordered list of
distinct ids. -/
structure LoopPreventionState where
  botUsername : String
  recentResponses : List (String × RecentResponse)
  processedEvents : List String
  cooldownMs : Int
  maxTracked : Nat
  deriving DecidableEq

/-- Default of `options.cooldownMs ?? 30_000` (loop-prevention.ts line 32). -/
def defaultCooldownMs : Int := 30000

/-- Default of `options.maxTracked ?? 1000` (loop-prevention.ts line 33). -/
def defaultMaxTracked : Nat := 1000

/-- Constructor of `LoopPrevention` with explicit options
(loop-prevention.ts lines 27-34): both tracking structures start empty. -/
def mkLoopPrevention (botUsername : String) (cooldownMs : Int) (maxTracked : Nat) :
    LoopPreventionState :=
  ⟨botUsername, [], [], cooldownMs, maxTracked⟩

/-- Constructor of `LoopPrevention` with the default options
(loop-prevention.ts lines 27-34), as used by the webhook handler
(handler.ts line 35). -/
def initLoopPrevention (botUsername : String) : LoopPreventionState :=
  mkLoopPrevention botUsername defaultCooldownMs defaultMaxTracked

/-- Model of JS `String.prototype.endsWith` over the character lists of the
two strings. -/
def strEndsWith (s suf : String) : Bool :=
  suf.data.isSuffixOf s.data

namespace LoopPrevention

/-- Faithful model of the private `isBotUser` (loop-prevention.ts lines
101-107): exact bot name, bot name plus a literal "[bot]" suffix, or any
username ending in "[bot]". -/
def isBotUser (s : LoopPreventionState) (username : String) : Bool :=
  username == s.botUsername ||
  username == s.botUsername ++ "[bot]" ||
  strEndsWith username "[bot]"

/-- JS `Map.get` over the association-list model. -/
def mapGet (m : List (String × RecentResponse)) (k : String) : Option RecentResponse :=
  (m.find? (fun p => p.1 == k)).map (fun p => p.2)

/-- JS `Map.set` over the association-list model: an existing key keeps its
insertion position and only its value is replaced; a new key is appended. -/
def mapSet (m : List (String × RecentResponse)) (k : String) (v : RecentResponse) :
    List (String × RecentResponse) :=
  if m.any (fun p => p.1 == k) then
    m.map (fun p => if p.1 == k then (k, v) else p)
  else m ++ [(k, v)]

/-- JS `Map.delete` iterated over a list of keys, as done by the eviction
loop of `recordResponse`: the surviving entries keep their order. -/
def mapDeleteKeys (m : List (String × RecentResponse)) (ks : List String) :
    List (String × RecentResponse) :=
  m.filter (fun p => !(ks.contains p.1))

/-- JS `Set.add` over the insertion-ordered list model: adding a present
element leaves the set (and the insertion order) unchanged, a new element is
appended. -/
def setAdd (l : List String) (e : String) : List String :=
  if l.contains e then l else l ++ [e]

/-- Faithful model of `LoopPrevention.check` (loop-prevention.ts lines
39-61).  `now` stands for the `Date.now()` call in the cooldown test.  The
three tests run in source order and the first hit short-circuits:
bot author, then duplicate event, then cooldown. -/
def check (s : LoopPreventionState) (author issueKey eventId : String) (now : Int) :
    LoopCheckResult :=
  if isBotUser s author then ⟨true, some LoopReason.bot_author⟩
  else if s.processedEvents.contains eventId then ⟨true, some LoopReason.duplicate_event⟩
  else
    match mapGet s.recentResponses issueKey with
    | some recent =>
      if now - recent.timestamp < s.cooldownMs then ⟨true, some LoopReason.recent_response⟩
      else ⟨false, Option.none⟩
    | Option.none => ⟨false, Option.none⟩

/-- Method-call form of `check`: the body of the TS method only reads the two
tracking structures (`Set.has`, `Map.get`), so the statement-by-statement
state translation returns the state it received. -/
def checkM (s : LoopPreventionState) (author issueKey eventId : String) (now : Int) :
    LoopCheckResult × LoopPreventionState :=
  (check s author issueKey eventId now, s)

/-- Faithful model of `LoopPrevention.markProcessed` (loop-prevention.ts
lines 66-77): add the id to the set, then, when the size exceeds
`maxTracked`, delete the first `size - maxTracked` elements in insertion
order (`Array.from(set).slice(0, size - max)`). -/
def markProcessed (s : LoopPreventionState) (eventId : String) : LoopPreventionState :=
  let evs := setAdd s.processedEvents eventId
  let evs2 := if evs.length > s.maxTracked then evs.drop (evs.length - s.maxTracked) else evs
  { s with processedEvents := evs2 }

/-- Numeric value of a list of decimal digit characters, used to model
`parseInt(digits, 10)`. -/
def digitsVal (ds : List Char) : Nat :=
  ds.foldl (fun acc c => acc * 10 + (c.toNat - 48)) 0

/-- Faithful model of the private `extractIssueNumber` (loop-prevention.ts
lines 109-112): the regex `#(\d+)$` captures the maximal digit suffix of the
key provided it is preceded by a literal hash character; otherwise the
result is 0. -/
def extractIssueNumber (issueKey : String) : Nat :=
  let rcs := issueKey.data.reverse
  let ds := rcs.takeWhile (fun c => c.isDigit)
  match ds, rcs.drop ds.length with
  | [], _ => 0
  | _ :: _, '#' :: _ => digitsVal ds.reverse
  | _ :: _, _ => 0

/-- Stable insert used to model the stable JS `Array.prototype.sort` with
comparator `(a, b) => a[1].timestamp - b[1].timestamp`: an element is placed
before the first strictly later timestamp, so equal timestamps keep their
original relative order. -/
def insertByTimestamp (x : String × RecentResponse) :
    List (String × RecentResponse) → List (String × RecentResponse)
  | [] => [x]
  | y :: ys =>
    if y.2.timestamp < x.2.timestamp then y :: insertByTimestamp x ys
    else x :: y :: ys

/-- Stable sort by ascending timestamp (model of the JS sort call in
`recordResponse`). -/
def sortByTimestamp : List (String × RecentResponse) → List (String × RecentResponse)
  | [] => []
  | x :: xs => insertByTimestamp x (sortByTimestamp xs)

/-- Faithful model of `LoopPrevention.recordResponse` (loop-prevention.ts
lines 82-96): overwrite the entry for the key with the current timestamp,
then, when the map exceeds `maxTracked`, delete the `size - maxTracked`
entries with the oldest timestamps (entries sorted ascending by timestamp,
the first `size - maxTracked` keys deleted). -/
def recordResponse (s : LoopPreventionState) (issueKey eventId : String) (now : Int) :
    LoopPreventionState :=
  let m := mapSet s.recentResponses issueKey ⟨extractIssueNumber issueKey, now, eventId⟩
  let m2 :=
    if m.length > s.maxTracked then
      let sorted := sortByTimestamp m
      let toDelete := (sorted.take (m.length - s.maxTracked)).map (fun p => p.1)
      mapDeleteKeys m toDelete
    else m
  { s with recentResponses := m2 }

/-- Model of `LoopPrevention.stats` (loop-prevention.ts lines 117-122). -/
def stats (s : LoopPreventionState) : Nat × Nat :=
  (s.processedEvents.length, s.recentResponses.length)

end LoopPrevention

/-- The state-mutating operations of `LoopPrevention`, used to speak about
arbitrary call sequences.  `check` is absent because it mutates nothing
(see the frame theorem for claim C10). -/
inductive LPOp where
  | mark (eventId : String)
  | record (issueKey eventId : String) (now : Int)
  deriving DecidableEq

/-- Apply one mutating operation to a `LoopPrevention` state. -/
def applyLPOp (s : LoopPreventionState) : LPOp → LoopPreventionState
  | LPOp.mark e => LoopPrevention.markProcessed s e
  | LPOp.record k e t => LoopPrevention.recordResponse s k e t

/-- Run a sequence of mutating operations. -/
def runLPOps (s : LoopPreventionState) (ops : List LPOp) : LoopPreventionState :=
  ops.foldl applyLPOp s

/-- Kind of a mention match (mention detector module, `MentionResult`). -/
inductive MentionType where
  | direct
  | reply
  | none
  deriving DecidableEq

/-- Result of `MentionDetector.detect`: `mentionedAt` is the match offset or
the sentinel -1. -/
structure MentionResult where
  isMentioned : Bool
  mentionedAt : Int
  mentionType : MentionType
  deriving DecidableEq

namespace MentionDetector

/-- Case-insensitive character comparison, modelling the `i` regex flag on
the basic latin characters the patterns consist of. -/
def ciEqChar (a b : Char) : Bool := a.toLower == b.toLower

/-- Case-insensitive equality of two character lists of equal length. -/
def ciEqList : List Char → List Char → Bool
  | [], [] => true
  | a :: as, b :: bs => ciEqChar a b && ciEqList as bs
  | _, _ => false

/-- Does the literal pattern `pat` occur case-insensitively in `cs` starting
at position `i`? -/
def ciMatchAt (cs pat : List Char) (i : Nat) : Bool :=
  ciEqList ((cs.drop i).take pat.length) pat

/-- JS regex word character: `[A-Za-z0-9_]`. -/
def isWordChar (c : Char) : Bool := c.isAlphanum || c == '_'

/-- Is the character at position `j` a word character (out of range counts
as not a word character)? -/
def wordAt (cs : List Char) (j : Nat) : Bool :=
  match cs.get? j with
  | some c => isWordChar c
  | Option.none => false

/-- JS regex word boundary at position `j` of the text: the word-character
status changes between the previous position and `j`. -/
def boundary (cs : List Char) (j : Nat) : Bool :=
  if j == 0 then wordAt cs 0
  else wordAt cs (j - 1) != wordAt cs j

/-- The whitespace characters matched by the JS regex class used in the
second pattern. -/
def jsWhitespace : List Char :=
  [' ', '\t', '\n', '\r', '\x0b', '\x0c', '\u00a0', '\u1680',
   '\u2000', '\u2001', '\u2002', '\u2003', '\u2004', '\u2005', '\u2006',
   '\u2007', '\u2008', '\u2009', '\u200a', '\u2028', '\u2029', '\u202f',
   '\u205f', '\u3000', '\ufeff']

/-- Membership in the JS whitespace class. -/
def jsIsSpace (c : Char) : Bool := jsWhitespace.contains c

/-- Semantics of the trailing group of the second pattern: a whitespace
character at `j`, or the end of the text. -/
def spaceOrEnd (cs : List Char) (j : Nat) : Bool :=
  match cs.get? j with
  | some c => jsIsSpace c
  | Option.none => true

/-- Match semantics of the first precomputed pattern of `MentionDetector`
at position `i`: a literal at sign, the bot name case-insensitively, an
optional literal "[bot]" marker, then a word boundary.  The optional group
contributes a match whenever either alternative closes with a boundary. -/
def p1At (u cs : List Char) (i : Nat) : Bool :=
  ciMatchAt cs ('@' :: u) i &&
    (let p := i + 1 + u.length
     (ciMatchAt cs "[bot]".data p && boundary cs (p + 5)) || boundary cs p)

/-- Match semantics of the second precomputed pattern of `MentionDetector`
at position `i`: as the first, but closed by a whitespace character or the
end of the text instead of a word boundary. -/
def p2At (u cs : List Char) (i : Nat) : Bool :=
  ciMatchAt cs ('@' :: u) i &&
    (let p := i + 1 + u.length
     (ciMatchAt cs "[bot]".data p && spaceOrEnd cs (p + 5)) || spaceOrEnd cs p)

/-- Model of `RegExp.exec` on a non-global pattern: the position of the
leftmost match, if any. -/
def execIdx (p : Nat → Bool) (len : Nat) : Option Nat :=
  (List.range len).find? p

/-- Faithful model of `MentionDetector.detect` for the detector constructed
with bot name `botUsername` (mention detector module): falsy text is
rejected first, then the two patterns are tried in order and the first one
with a match anywhere in the text wins, reporting the match offset. -/
def detect (botUsername text : String) : MentionResult :=
  if text == "" then ⟨false, -1, MentionType.none⟩
  else
    let cs := text.data
    let u := botUsername.data
    match execIdx (fun i => p1At u cs i) cs.length with
    | some i => ⟨true, (i : Int), MentionType.direct⟩
    | Option.none =>
      match execIdx (fun i => p2At u cs i) cs.length with
      | some i => ⟨true, (i : Int), MentionType.direct⟩
      | Option.none => ⟨false, -1, MentionType.none⟩

end MentionDetector

/-- Entry of the token cache (token-cache.ts lines 6-9): expiry is an
absolute instant in milliseconds. -/
structure CachedToken where
  token : String
  expiresAt : Int
  deriving DecidableEq

/-- State of the `TokenCache` (token-cache.ts lines 11-20): the JS `Map`
keyed by installation id is an insertion-ordered association list. -/
structure TokenCacheState where
  cache : List (Nat × CachedToken)
  refreshMarginMs : Int
  deriving DecidableEq

/-- Default refresh margin of the token cache: 5 minutes
(token-cache.ts line 18). -/
def defaultRefreshMarginMs : Int := 5 * 60 * 1000

/-- Constructor of `TokenCache` with an explicit margin
(token-cache.ts lines 18-20). -/
def initTokenCache (refreshMarginMs : Int) : TokenCacheState :=
  ⟨[], refreshMarginMs⟩

namespace TokenCache

/-- JS `Map.get` over the association-list model of the token cache. -/
def cacheGet (m : List (Nat × CachedToken)) (k : Nat) : Option CachedToken :=
  (m.find? (fun p => p.1 == k)).map (fun p => p.2)

/-- JS `Map.set` over the association-list model of the token cache. -/
def cacheSet (m : List (Nat × CachedToken)) (k : Nat) (v : CachedToken) :
    List (Nat × CachedToken) :=
  if m.any (fun p => p.1 == k) then
    m.map (fun p => if p.1 == k then (k, v) else p)
  else m ++ [(k, v)]

/-- JS `Map.delete` over the association-list model of the token cache. -/
def cacheDelete (m : List (Nat × CachedToken)) (k : Nat) : List (Nat × CachedToken) :=
  m.filter (fun p => !(p.1 == k))

/-- Faithful model of `TokenCache.get` (token-cache.ts lines 25-37): a
missing entry yields no token; an entry whose expiry is at or before
`now + refreshMarginMs` is deleted and yields no token; otherwise the cached
token string is returned and the state is untouched. -/
def get (s : TokenCacheState) (installationId : Nat) (now : Int) :
    Option String × TokenCacheState :=
  match cacheGet s.cache installationId with
  | Option.none => (Option.none, s)
  | some cached =>
    let refreshThreshold := now + s.refreshMarginMs
    if cached.expiresAt ≤ refreshThreshold then
      (Option.none, { s with cache := cacheDelete s.cache installationId })
    else (some cached.token, s)

/-- Faithful model of `TokenCache.set` (token-cache.ts lines 42-48):
unconditional overwrite with an absolute expiry instant. -/
def set (s : TokenCacheState) (installationId : Nat) (token : String) (expiresAt : Int) :
    TokenCacheState :=
  { s with cache := cacheSet s.cache installationId ⟨token, expiresAt⟩ }

/-- Model of `TokenCache.has` (token-cache.ts lines 53-55): derived from
`get` being present, including its eviction side effect. -/
def hasTok (s : TokenCacheState) (installationId : Nat) (now : Int) : Bool :=
  match (get s installationId now).1 with
  | some _ => true
  | Option.none => false

/-- Model of `TokenCache.clear` (token-cache.ts lines 60-62). -/
def clearOne (s : TokenCacheState) (installationId : Nat) : TokenCacheState :=
  { s with cache := cacheDelete s.cache installationId }

end TokenCache

/-- Per-repository policy read by the handler (types module `RepoConfig`):
only the flags consulted by the decision sequencing are modelled. -/
structure RepoConfig where
  enabled : Bool
  autoLabel : Bool
  autoRespond : Bool
  deriving DecidableEq

/-- The part of the analysis-engine result consumed by the handler:
suggested labels and the response body. -/
structure IssueAnalysis where
  labels : List String
  response : String
  deriving DecidableEq

/-- Settlement of one collaborator promise: fulfilled with a value, or
rejected. -/
inductive Outcome (α : Type) where
  | ok (value : α)
  | fail
  deriving DecidableEq

/-- The settlement each external collaborator call of one trigger would
produce, supplied as data so that the handler control flow is a function. -/
structure Collaborators where
  analyzeIssue : Outcome IssueAnalysis
  addLabels : Outcome Unit
  createComment : Outcome Nat
  deriving DecidableEq

/-- Observable step of the handler pipeline, in call order: the external
calls, the loop-prevention bookkeeping calls, and the catch-block log. -/
inductive HandlerEvent where
  | markProcessedEv (eventId : String)
  | analyzeCall
  | addLabelsCall (labels : List String)
  | createCommentCall (body : String)
  | recordResponseEv (issueKey : String)
  | logError
  deriving DecidableEq

/-- Faithful model of `WebhookHandler.processIssue` (handler.ts lines
201-254).  The body runs inside one `try`: `markProcessed` first, then the
awaited analysis call; on its rejection the catch logs and nothing else
happens.  Labels are added only under `config.autoLabel` with a non-empty
label list; a rejected `addLabels` jumps to the catch.  Under
`config.autoRespond` the comment is posted and, only after the call
fulfils, `recordResponse` runs on the composite key. -/
def processIssue (s : LoopPreventionState) (cfg : RepoConfig) (collab : Collaborators)
    (fullName : String) (issueNumber : Nat) (eventId : String) (now : Int) :
    List HandlerEvent × LoopPreventionState :=
  let s1 := LoopPrevention.markProcessed s eventId
  let t0 := [HandlerEvent.markProcessedEv eventId, HandlerEvent.analyzeCall]
  match collab.analyzeIssue with
  | Outcome.fail => (t0 ++ [HandlerEvent.logError], s1)
  | Outcome.ok analysis =>
    let labelStep : List HandlerEvent × Bool :=
      if cfg.autoLabel && analysis.labels.length > 0 then
        ([HandlerEvent.addLabelsCall analysis.labels],
         match collab.addLabels with
         | Outcome.ok _ => true
         | Outcome.fail => false)
      else ([], true)
    let t1 := t0 ++ labelStep.1
    if !labelStep.2 then (t1 ++ [HandlerEvent.logError], s1)
    else if cfg.autoRespond then
      let t2 := t1 ++ [HandlerEvent.createCommentCall analysis.response]
      match collab.createComment with
      | Outcome.fail => (t2 ++ [HandlerEvent.logError], s1)
      | Outcome.ok _ =>
        let issueKey := fullName ++ "#" ++ toString issueNumber
        (t2 ++ [HandlerEvent.recordResponseEv issueKey],
         LoopPrevention.recordResponse s1 issueKey eventId now)
    else (t1, s1)

/-- Faithful model of `WebhookHandler.processIssueWithConversation`
(handler.ts lines 259-313).  As `processIssue`, except that no labels are
added and the comment is posted unconditionally: the function never reads
the repo config, so the `autoRespond` toggle cannot influence it. -/
def processIssueWithConversation (s : LoopPreventionState) (cfg : RepoConfig)
    (collab : Collaborators) (fullName : String) (issueNumber : Nat) (eventId : String)
    (now : Int) : List HandlerEvent × LoopPreventionState :=
  let _ := cfg
  let s1 := LoopPrevention.markProcessed s eventId
  let t0 := [HandlerEvent.markProcessedEv eventId, HandlerEvent.analyzeCall]
  match collab.analyzeIssue with
  | Outcome.fail => (t0 ++ [HandlerEvent.logError], s1)
  | Outcome.ok analysis =>
    let t1 := t0 ++ [HandlerEvent.createCommentCall analysis.response]
    match collab.createComment with
    | Outcome.fail => (t1 ++ [HandlerEvent.logError], s1)
    | Outcome.ok _ =>
      let issueKey := fullName ++ "#" ++ toString issueNumber
      (t1 ++ [HandlerEvent.recordResponseEv issueKey],
       LoopPrevention.recordResponse s1 issueKey eventId now)

/-- Synchronous segment of the `issues.opened` handler (handler.ts lines
49-84 and 201-217) from after the repo-config guard up to the first
suspension point.  The loop check and the mention check run synchronously;
on success the body of `processIssue` also runs synchronously through
`markProcessed`, and the first `await` of an external collaborator call is
the analysis call, reached only after `markProcessed`.  The Bool reports
whether the trigger passed both gates. -/
def issuesOpenedSyncSegment (s : LoopPreventionState)
    (author issueKey eventId body : String) (now : Int) : Bool × LoopPreventionState :=
  let r := LoopPrevention.check s author issueKey eventId now
  if r.shouldIgnore then (false, s)
  else if !(MentionDetector.detect s.botUsername body).isMentioned then (false, s)
  else (true, LoopPrevention.markProcessed s eventId)

/-- Synchronous segment of the `issue_comment.created` handler (handler.ts
lines 87-133) from after the repo-config guard up to the first suspension
point.  The loop check and the mention check run synchronously, but the
handler then awaits `collectConversationContext`, whose first statement
awaits the external `getIssueComments` call (handler.ts line 183) before
`processIssueWithConversation` is ever entered: the segment therefore ends
with the tracking state untouched, and `markProcessed` runs only after that
first suspension point. -/
def commentCreatedSyncSegment (s : LoopPreventionState)
    (author issueKey eventId body : String) (now : Int) : Bool × LoopPreventionState :=
  let r := LoopPrevention.check s author issueKey eventId now
  if r.shouldIgnore then (false, s)
  else if !(MentionDetector.detect s.botUsername body).isMentioned then (false, s)
  else (true, s)

/-! Helper lemmas shared by the claim theorems. -/

theorem char_toNat_ofNat_lt (n : Nat) (h : n < 55296) : (Char.ofNat n).toNat = n := by
  unfold Char.ofNat
  rw [dif_pos (Or.inl h)]
  simp [Char.ofNatAux, Char.toNat, UInt32.ofNat', BitVec.toNat_ofNatLt]
  rfl

theorem ciEqChar_at_eq (c : Char) (h : MentionDetector.ciEqChar c '@' = true) : c = '@' := by
  unfold MentionDetector.ciEqChar at h
  have h2 : c.toLower = '@' := by
    have h0 : ('@' : Char).toLower = '@' := by decide
    rw [h0] at h
    exact eq_of_beq h
  simp only [Char.toLower] at h2
  split at h2
  · next hcond =>
    have h3 := congrArg Char.toNat h2
    have hlt : c.toNat + 32 < 55296 := by omega
    rw [char_toNat_ofNat_lt _ hlt] at h3
    have h4 : ('@' : Char).toNat = 64 := by decide
    omega
  · exact h2

theorem ciMatchAt_head_at (cs u : List Char) (i : Nat)
    (h : MentionDetector.ciMatchAt cs ('@' :: u) i = true) : '@' ∈ cs := by
  unfold MentionDetector.ciMatchAt at h
  cases htake : (cs.drop i).take (('@' :: u).length) with
  | nil => rw [htake] at h; simp [MentionDetector.ciEqList] at h
  | cons c rest =>
    rw [htake] at h
    have hc : MentionDetector.ciEqChar c '@' = true := by
      have := h
      unfold MentionDetector.ciEqList at this
      exact (Bool.and_eq_true_iff.mp this).1
    have hc2 : c = '@' := ciEqChar_at_eq c hc
    have hmem : c ∈ (cs.drop i).take (('@' :: u).length) := by
      rw [htake]; exact List.mem_cons_self _ _
    have : c ∈ cs := List.mem_of_mem_drop (List.mem_of_mem_take hmem)
    rwa [hc2] at this

theorem detect_no_at_false (bot text : String) (h : '@' ∉ text.data) :
    (MentionDetector.detect bot text).isMentioned = false := by
  unfold MentionDetector.detect
  by_cases h0 : text == ""
  · simp [h0]
  · simp only [h0, if_false]
    have hp1 : ∀ i, MentionDetector.p1At bot.data text.data i = false := by
      intro i
      unfold MentionDetector.p1At
      cases hm : MentionDetector.ciMatchAt text.data ('@' :: bot.data) i with
      | false => simp
      | true => exact absurd (ciMatchAt_head_at _ _ _ hm) h
    have hp2 : ∀ i, MentionDetector.p2At bot.data text.data i = false := by
      intro i
      unfold MentionDetector.p2At
      cases hm : MentionDetector.ciMatchAt text.data ('@' :: bot.data) i with
      | false => simp
      | true => exact absurd (ciMatchAt_head_at _ _ _ hm) h
    have e1 : MentionDetector.execIdx (fun i => MentionDetector.p1At bot.data text.data i)
        text.data.length = Option.none := by
      unfold MentionDetector.execIdx
      rw [List.find?_eq_none]
      intro x _
      simp [hp1 x]
    have e2 : MentionDetector.execIdx (fun i => MentionDetector.p2At bot.data text.data i)
        text.data.length = Option.none := by
      unfold MentionDetector.execIdx
      rw [List.find?_eq_none]
      intro x _
      simp [hp2 x]
    rw [e1, e2]
    simp

theorem check_reason_duplicate_imp_mem (s : LoopPreventionState) (a k e : String) (t : Int)
    (h : (LoopPrevention.check s a k e t).reason = some LoopReason.duplicate_event) :
    e ∈ s.processedEvents := by
  unfold LoopPrevention.check at h
  split at h
  · simp at h
  · split at h
    · next hc =>
      simpa using hc
    · split at h
      · split at h <;> simp_all
      · simp at h

theorem mem_markProcessed_imp (s : LoopPreventionState) (e e' : String)
    (h : e ∈ (LoopPrevention.markProcessed s e').processedEvents) :
    e ∈ LoopPrevention.setAdd s.processedEvents e' := by
  simp only [LoopPrevention.markProcessed] at h
  split at h
  · exact List.mem_of_mem_drop h
  · exact h

theorem mem_setAdd_imp (l : List String) (e e' : String)
    (h : e ∈ LoopPrevention.setAdd l e') : e ∈ l ∨ e = e' := by
  unfold LoopPrevention.setAdd at h
  split at h
  · exact Or.inl h
  · rcases List.mem_append.mp h with h1 | h1
    · exact Or.inl h1
    · simp at h1
      exact Or.inr h1

theorem mark_preserves_not_mem (s : LoopPreventionState) (e e' : String)
    (h : e ∉ s.processedEvents) (hne : e' ≠ e) :
    e ∉ (LoopPrevention.markProcessed s e').processedEvents := by
  intro hmem
  rcases mem_setAdd_imp _ _ _ (mem_markProcessed_imp s e e' hmem) with h1 | h1
  · exact h h1
  · exact hne h1.symm

theorem record_preserves_processed (s : LoopPreventionState) (k e : String) (t : Int) :
    (LoopPrevention.recordResponse s k e t).processedEvents = s.processedEvents := rfl

theorem runLPOps_not_mem (e : String) : ∀ (ops : List LPOp) (s : LoopPreventionState),
    e ∉ s.processedEvents → LPOp.mark e ∉ ops → e ∉ (runLPOps s ops).processedEvents := by
  intro ops
  induction ops with
  | nil => intro s h _; exact h
  | cons op rest ih =>
    intro s h hops
    have h1 : LPOp.mark e ∉ rest := fun hr => hops (List.mem_cons_of_mem _ hr)
    have h2 : op ≠ LPOp.mark e := fun heq => hops (heq ▸ List.mem_cons_self _ _)
    have hstep : runLPOps s (op :: rest) = runLPOps (applyLPOp s op) rest := rfl
    rw [hstep]
    cases op with
    | mark e' =>
      refine ih _ (mark_preserves_not_mem s e e' h ?_) h1
      intro hee
      exact h2 (by rw [hee])
    | record k' e' t' =>
      refine ih _ ?_ h1
      rw [show applyLPOp s (LPOp.record k' e' t') = LoopPrevention.recordResponse s k' e' t'
        from rfl, record_preserves_processed]
      exact h

theorem find_map_overwrite (k : String) (v : RecentResponse) :
    ∀ (m : List (String × RecentResponse)), m.any (fun p => p.1 == k) = true →
    (m.map (fun p => if p.1 == k then (k, v) else p)).find? (fun p => p.1 == k) =
      some (k, v) := by
  intro m
  induction m with
  | nil => intro h; simp at h
  | cons p rest ih =>
    intro h
    by_cases hp : (p.1 == k) = true
    · have hhead : (if p.1 == k then (k, v) else p) = (k, v) := by simp [hp]
      simp only [List.map_cons, hhead]
      exact List.find?_cons_of_pos _ (by simp)
    · have hhead : (if p.1 == k then (k, v) else p) = p := by
        simp only [hp, Bool.false_eq_true, if_false]
      simp only [List.map_cons, hhead]
      rw [List.find?_cons_of_neg _ (by simpa using hp)]
      apply ih
      simp only [List.any_cons] at h
      rcases Bool.or_eq_true_iff.mp h with h1 | h1
      · exact absurd h1 hp
      · exact h1

theorem find_append_key (k : String) (v : RecentResponse) :
    ∀ (m : List (String × RecentResponse)), m.any (fun p => p.1 == k) = false →
    (m ++ [(k, v)]).find? (fun p => p.1 == k) = some (k, v) := by
  intro m
  induction m with
  | nil => intro _; simp
  | cons p rest ih =>
    intro h
    simp only [List.any_cons, Bool.or_eq_false_iff] at h
    simp only [List.cons_append]
    rw [List.find?_cons_of_neg _ (by simp [h.1])]
    exact ih (by simp [h.2])

theorem mapGet_mapSet_self (m : List (String × RecentResponse)) (k : String)
    (v : RecentResponse) : LoopPrevention.mapGet (LoopPrevention.mapSet m k v) k = some v := by
  unfold LoopPrevention.mapSet LoopPrevention.mapGet
  split
  · next hany =>
    rw [find_map_overwrite k v m hany]
    rfl
  · next hany =>
    rw [find_append_key k v m (Bool.not_eq_true _ ▸ Bool.of_not_eq_true hany)]
    rfl

theorem mapSet_length_le (m : List (String × RecentResponse)) (k : String)
    (v : RecentResponse) : (LoopPrevention.mapSet m k v).length ≤ m.length + 1 := by
  unfold LoopPrevention.mapSet
  split
  · simp
  · simp

theorem tc_find_map_overwrite (k : Nat) (v : CachedToken) :
    ∀ (m : List (Nat × CachedToken)), m.any (fun p => p.1 == k) = true →
    (m.map (fun p => if p.1 == k then (k, v) else p)).find? (fun p => p.1 == k) =
      some (k, v) := by
  intro m
  induction m with
  | nil => intro h; simp at h
  | cons p rest ih =>
    intro h
    by_cases hp : (p.1 == k) = true
    · have hhead : (if p.1 == k then (k, v) else p) = (k, v) := by simp [hp]
      simp only [List.map_cons, hhead]
      exact List.find?_cons_of_pos _ (by simp)
    · have hhead : (if p.1 == k then (k, v) else p) = p := by
        simp only [hp, Bool.false_eq_true, if_false]
      simp only [List.map_cons, hhead]
      rw [List.find?_cons_of_neg _ (by simpa using hp)]
      apply ih
      simp only [List.any_cons] at h
      rcases Bool.or_eq_true_iff.mp h with h1 | h1
      · exact absurd h1 hp
      · exact h1

theorem tc_find_append_key (k : Nat) (v : CachedToken) :
    ∀ (m : List (Nat × CachedToken)), m.any (fun p => p.1 == k) = false →
    (m ++ [(k, v)]).find? (fun p => p.1 == k) = some (k, v) := by
  intro m
  induction m with
  | nil => intro _; simp
  | cons p rest ih =>
    intro h
    simp only [List.any_cons, Bool.or_eq_false_iff] at h
    simp only [List.cons_append]
    rw [List.find?_cons_of_neg _ (by simp [h.1])]
    exact ih (by simp [h.2])

theorem cacheGet_cacheSet_self (m : List (Nat × CachedToken)) (k : Nat) (v : CachedToken) :
    TokenCache.cacheGet (TokenCache.cacheSet m k v) k = some v := by
  unfold TokenCache.cacheSet TokenCache.cacheGet
  split
  · next hany =>
    rw [tc_find_map_overwrite k v m hany]
    rfl
  · next hany =>
    rw [tc_find_append_key k v m (Bool.not_eq_true _ ▸ Bool.of_not_eq_true hany)]
    rfl

theorem cacheGet_cacheDelete_self (m : List (Nat × CachedToken)) (k : Nat) :
    TokenCache.cacheGet (TokenCache.cacheDelete m k) k = Option.none := by
  unfold TokenCache.cacheDelete TokenCache.cacheGet
  rw [List.find?_eq_none.mpr]
  · rfl
  · intro p hp
    have := List.of_mem_filter hp
    simpa using this

theorem markProcessed_fresh_append (s : LoopPreventionState) (e : String)
    (hnot : e ∉ s.processedEvents) (hcap : s.processedEvents.length + 1 ≤ s.maxTracked) :
    LoopPrevention.markProcessed s e = { s with processedEvents := s.processedEvents ++ [e] } := by
  unfold LoopPrevention.markProcessed LoopPrevention.setAdd
  have hc : s.processedEvents.contains e = false := by
    simpa using hnot
  simp only [hc, Bool.false_eq_true, if_false, List.length_append, List.length_cons,
    List.length_nil]
  rw [if_neg]
  omega

theorem foldl_markProcessed_fresh :
    ∀ (ids : List String) (s : LoopPreventionState),
    (∀ x ∈ ids, x ∉ s.processedEvents) → ids.Nodup →
    s.processedEvents.length + ids.length ≤ s.maxTracked →
    ids.foldl LoopPrevention.markProcessed s =
      { s with processedEvents := s.processedEvents ++ ids } := by
  intro ids
  induction ids with
  | nil => intro s _ _ _; simp
  | cons e rest ih =>
    intro s hfresh hnodup hcap
    have hstep : (e :: rest).foldl LoopPrevention.markProcessed s =
        rest.foldl LoopPrevention.markProcessed (LoopPrevention.markProcessed s e) := rfl
    rw [hstep, markProcessed_fresh_append s e (hfresh e (List.mem_cons_self _ _)) (by
      simp only [List.length_cons] at hcap
      omega)]
    rw [ih _ ?hfresh ?hnodup ?hcap]
    · simp
    case hfresh =>
      intro x hx
      simp only [List.mem_append, List.mem_singleton]
      rintro (hx1 | hx1)
      · exact hfresh x (List.mem_cons_of_mem _ hx) hx1
      · rw [hx1] at hx
        exact (List.nodup_cons.mp hnodup).1 hx
    case hnodup => exact (List.nodup_cons.mp hnodup).2
    case hcap =>
      simp only [List.length_append, List.length_cons, List.length_nil]
      simp only [List.length_cons] at hcap
      omega

/-! Claim theorems. -/

/-- Claim C1.  The claim states that on both event paths the loop check, the
mention check and `markProcessed(eventId)` complete before the first
suspension point, so no two triggers with the same event id can both pass
the duplicate-event check.  This holds on the `issues.opened` path but fails
on the `issue_comment.created` path: there the handler awaits the external
`getIssueComments` call (inside `collectConversationContext`, handler.ts
lines 119-124 and 183) before `processIssueWithConversation` calls
`markProcessed` (handler.ts line 272).  This theorem evaluates the code at
the failing input: two `issue_comment.created` triggers carrying the same
delivery id "ev1", the second scheduled while the first is suspended at
`getIssueComments`.  Both pass the full gating (conjuncts 1 and 2), and the
first suspension leaves the tracking state untouched, while on the
`issues.opened` path the same interleaving suppresses the second trigger
with reason duplicate_event (conjuncts 3 to 5), exactly as the claim
demands.  The code therefore contradicts the stated guarantee on the
comment path. -/
theorem C1_comment_path_passes_duplicate_twice :
    (commentCreatedSyncSegment (initLoopPrevention "mybot") "alice" "o/r#1" "ev1"
        "@mybot help" 0) = (true, initLoopPrevention "mybot") ∧
    (commentCreatedSyncSegment
        (commentCreatedSyncSegment (initLoopPrevention "mybot") "alice" "o/r#1" "ev1"
          "@mybot help" 0).2
        "bob" "o/r#1" "ev1" "@mybot help" 5).1 = true ∧
    (issuesOpenedSyncSegment (initLoopPrevention "mybot") "alice" "o/r#1" "ev1"
        "@mybot help" 0).1 = true ∧
    (issuesOpenedSyncSegment
        (issuesOpenedSyncSegment (initLoopPrevention "mybot") "alice" "o/r#1" "ev1"
          "@mybot help" 0).2
        "bob" "o/r#1" "ev1" "@mybot help" 5).1 = false ∧
    (LoopPrevention.check
        (issuesOpenedSyncSegment (initLoopPrevention "mybot") "alice" "o/r#1" "ev1"
          "@mybot help" 0).2
        "bob" "o/r#1" "ev1" 5).reason = some LoopReason.duplicate_event := by
  decide

/-- Claim C2, counterexample.  The claim demands that after
`markProcessed(e)` every subsequent `check` with the same `e` reports
duplicate_event for every author.  With the bot-style author "other[bot]"
the check instead reports bot_author, because the bot-author test runs
first (loop-prevention.ts lines 44-52). -/
theorem C2_counterexample_bot_author_wins :
    (LoopPrevention.check (LoopPrevention.markProcessed (initLoopPrevention "mybot") "e1")
        "other[bot]" "k" "e1" 0).reason = some LoopReason.bot_author ∧
    (LoopPrevention.check (LoopPrevention.markProcessed (initLoopPrevention "mybot") "e1")
        "other[bot]" "k" "e1" 0).reason ≠ some LoopReason.duplicate_event := by
  decide

/-- Claim C2, amended.  For every event id `e`: (1) starting from a fresh
`LoopPrevention`, as long as `markProcessed(e)` has never been called,
`check` never reports duplicate_event for `e`, whatever other operations
ran, whatever the author and the issue key; (2) whenever `e` is tracked,
every `check` with `e` by a non-bot author reports duplicate_event, for
every issue key and time; and (3) `markProcessed(e)` leaves `e` tracked
(given a positive capacity and the tracked count within its bound, which
holds in every reachable state).  The amendment restricts the
after-markProcessed part to non-bot authors, because the bot-author test
precedes the duplicate-event test. -/
theorem C2_duplicate_event_amended :
    (∀ (bot : String) (cd : Int) (mx : Nat) (ops : List LPOp) (a k e : String) (t : Int),
      LPOp.mark e ∉ ops →
      (LoopPrevention.check (runLPOps (mkLoopPrevention bot cd mx) ops) a k e t).reason ≠
        some LoopReason.duplicate_event) ∧
    (∀ (s : LoopPreventionState) (a k e : String) (t : Int),
      LoopPrevention.isBotUser s a = false → e ∈ s.processedEvents →
      (LoopPrevention.check s a k e t).reason = some LoopReason.duplicate_event) ∧
    (∀ (s : LoopPreventionState) (e : String), 1 ≤ s.maxTracked →
      s.processedEvents.length ≤ s.maxTracked →
      e ∈ (LoopPrevention.markProcessed s e).processedEvents) := by
  refine ⟨?before, ?after, ?marked⟩
  case before =>
    intro bot cd mx ops a k e t hops hdup
    have hmem := check_reason_duplicate_imp_mem _ a k e t hdup
    have hnot : e ∉ (runLPOps (mkLoopPrevention bot cd mx) ops).processedEvents := by
      apply runLPOps_not_mem e ops
      · simp [mkLoopPrevention]
      · exact hops
    exact hnot hmem
  case after =>
    intro s a k e t hbot hmem
    unfold LoopPrevention.check
    rw [if_neg (by simp [hbot]), if_pos (by simpa using hmem)]
  case marked =>
    intro s e hpos hcap
    by_cases hc : s.processedEvents.contains e = true
    · have hmem : e ∈ s.processedEvents := by simpa using hc
      simp only [LoopPrevention.markProcessed, LoopPrevention.setAdd, hc, if_true]
      split
      · next hlen => exact absurd hlen (by omega)
      · exact hmem
    · have hc' : s.processedEvents.contains e = false := by simpa using hc
      simp only [LoopPrevention.markProcessed, LoopPrevention.setAdd, hc',
        Bool.false_eq_true, if_false]
      split
      · next hlen =>
        have hle : (s.processedEvents ++ [e]).length - s.maxTracked ≤
            s.processedEvents.length := by
          simp only [List.length_append, List.length_cons, List.length_nil]
          omega
        rw [List.drop_append_of_le_length hle]
        exact List.mem_append.mpr (Or.inr (List.mem_singleton.mpr rfl))
      · exact List.mem_append.mpr (Or.inr (List.mem_singleton.mpr rfl))

theorem C2_duplicate_event_amended_witness :
    (LoopPrevention.check (LoopPrevention.markProcessed (initLoopPrevention "mybot") "e1")
        "alice" "k" "e1" 0).reason = some LoopReason.duplicate_event ∧
    (LoopPrevention.check (runLPOps (mkLoopPrevention "mybot" 30000 1000) [LPOp.mark "e2"])
        "alice" "k" "e1" 0).reason ≠ some LoopReason.duplicate_event ∧
    "e1" ∈ (LoopPrevention.markProcessed (initLoopPrevention "mybot") "e1").processedEvents :=
  ⟨C2_duplicate_event_amended.2.1 (LoopPrevention.markProcessed (initLoopPrevention "mybot") "e1")
      "alice" "k" "e1" 0 (by decide) (by decide),
   C2_duplicate_event_amended.1 "mybot" 30000 1000 [LPOp.mark "e2"] "alice" "k" "e1" 0
      (by decide),
   C2_duplicate_event_amended.2.2 (initLoopPrevention "mybot") "e1" (by decide) (by decide)⟩

/-- Claim C3.  For every state of the gate (in particular states where the
event id is already tracked or the issue is inside the cooldown window) and
every author that equals the bot name, equals the bot name followed by
"[bot]", or ends in "[bot]", `check` returns shouldIgnore with reason
bot_author: the bot-author test is the first test in `check`
(loop-prevention.ts lines 44-47), so it wins over duplicate_event and
recent_response. -/
theorem C3_bot_author_priority (s : LoopPreventionState) (author issueKey eventId : String)
    (now : Int)
    (h : author = s.botUsername ∨ author = s.botUsername ++ "[bot]" ∨
      strEndsWith author "[bot]" = true) :
    LoopPrevention.check s author issueKey eventId now =
      ⟨true, some LoopReason.bot_author⟩ := by
  have hb : LoopPrevention.isBotUser s author = true := by
    unfold LoopPrevention.isBotUser
    rcases h with h | h | h
    · simp [h]
    · simp [h]
    · simp [h]
  unfold LoopPrevention.check
  rw [if_pos hb]

theorem C3_bot_author_priority_witness :
    LoopPrevention.check
      (LoopPrevention.recordResponse
        (LoopPrevention.markProcessed (initLoopPrevention "mybot") "e1") "o/r#1" "e0" 0)
      "mybot[bot]" "o/r#1" "e1" 10 = ⟨true, some LoopReason.bot_author⟩ :=
  C3_bot_author_priority
    (LoopPrevention.recordResponse
      (LoopPrevention.markProcessed (initLoopPrevention "mybot") "e1") "o/r#1" "e0" 0)
    "mybot[bot]" "o/r#1" "e1" 10 (Or.inr (Or.inl (by decide)))

/-- Claim C8, counterexample.  The claim demands that in every text where
the bot name occurs only as a proper prefix of a longer name, `detect`
reports no mention.  In the text "@bot-name-extra" the name "bot-name"
occurs only as a proper prefix of the longer account name "bot-name-extra",
yet the first pattern of the detector matches: its trailing regex word
boundary is satisfied at the hyphen, a non-word character.  So the detector
does treat the name as a leading substring of a longer name here. -/
theorem C8_counterexample_word_boundary :
    (MentionDetector.detect "bot-name" "@bot-name-extra").isMentioned = true := by
  decide

/-- Claim C8, amended.  For bot identity "bot-name": the positive example
matches at offset 12 and matching is case-insensitive; the negative example
"talking about bot-name-extra" yields no mention (and, in general, any text
without a literal at sign yields no mention, whatever the bot name); the
token boundary is the regex word boundary, so an extension of the name by a
word character ("@bot-nameextra") does not match, but an extension beyond a
non-word character such as a hyphen ("@bot-name-extra") does match. -/
theorem C8_mention_detection_amended :
    MentionDetector.detect "bot-name" "please help @bot-name fix this" =
      ⟨true, 12, MentionType.direct⟩ ∧
    MentionDetector.detect "bot-name" "Please Help @BOT-Name Fix This" =
      ⟨true, 12, MentionType.direct⟩ ∧
    (MentionDetector.detect "bot-name" "talking about bot-name-extra").isMentioned = false ∧
    (MentionDetector.detect "bot-name" "@bot-nameextra").isMentioned = false ∧
    (MentionDetector.detect "bot-name" "@bot-name-extra").isMentioned = true ∧
    (∀ (bot text : String), '@' ∉ text.data →
      (MentionDetector.detect bot text).isMentioned = false) := by
  refine ⟨by decide, by decide, by decide, by decide, by decide, ?_⟩
  intro bot text h
  exact detect_no_at_false bot text h

theorem C8_mention_detection_amended_witness :
    (MentionDetector.detect "bot-name" "no mention of the robot here").isMentioned = false :=
  C8_mention_detection_amended.2.2.2.2.2 "bot-name" "no mention of the robot here" (by decide)

/-- Claim C4.  For every state, issue key and fresh event id, from a non-bot
author: after `recordResponse(k, e1)` at time T, a check for issue k at time
T + cooldown - 1 reports recent_response and a check at time T + cooldown + 1
proceeds (loop-prevention.ts lines 54-58 and 82-96).  The theorem is stated
for an arbitrary configured cooldown; the default construction sets it to
30000 ms.  The capacity hypothesis keeps the eviction loop of
`recordResponse` out of play, as in every reachable state below the bound. -/
theorem C4_cooldown_window (s : LoopPreventionState) (k e1 e author : String) (T : Int)
    (hbot : LoopPrevention.isBotUser s author = false)
    (hfresh : s.processedEvents.contains e = false)
    (hcap : s.recentResponses.length < s.maxTracked) :
    (LoopPrevention.check (LoopPrevention.recordResponse s k e1 T) author k e
        (T + s.cooldownMs - 1)).reason = some LoopReason.recent_response ∧
    (LoopPrevention.check (LoopPrevention.recordResponse s k e1 T) author k e
        (T + s.cooldownMs + 1)).shouldIgnore = false := by
  have hrec : (LoopPrevention.recordResponse s k e1 T).recentResponses =
      LoopPrevention.mapSet s.recentResponses k
        ⟨LoopPrevention.extractIssueNumber k, T, e1⟩ := by
    simp only [LoopPrevention.recordResponse]
    rw [if_neg]
    have := mapSet_length_le s.recentResponses k ⟨LoopPrevention.extractIssueNumber k, T, e1⟩
    omega
  have hget : LoopPrevention.mapGet (LoopPrevention.recordResponse s k e1 T).recentResponses k =
      some ⟨LoopPrevention.extractIssueNumber k, T, e1⟩ := by
    rw [hrec]
    exact mapGet_mapSet_self _ _ _
  have hbot2 : LoopPrevention.isBotUser (LoopPrevention.recordResponse s k e1 T) author =
      false := hbot
  have hfresh2 : (LoopPrevention.recordResponse s k e1 T).processedEvents.contains e =
      false := hfresh
  have hcd : (LoopPrevention.recordResponse s k e1 T).cooldownMs = s.cooldownMs := rfl
  constructor
  · unfold LoopPrevention.check
    rw [hbot2, hfresh2, hget, hcd]
    simp only [Bool.false_eq_true, if_false]
    rw [if_pos (by omega)]
  · unfold LoopPrevention.check
    rw [hbot2, hfresh2, hget, hcd]
    simp only [Bool.false_eq_true, if_false]
    rw [if_neg (by omega)]

theorem C4_cooldown_window_witness :
    (LoopPrevention.check
        (LoopPrevention.recordResponse (initLoopPrevention "mybot") "o/r#1" "e1" 1000)
        "alice" "o/r#1" "e2"
        (1000 + (initLoopPrevention "mybot").cooldownMs - 1)).reason =
      some LoopReason.recent_response ∧
    (LoopPrevention.check
        (LoopPrevention.recordResponse (initLoopPrevention "mybot") "o/r#1" "e1" 1000)
        "alice" "o/r#1" "e2"
        (1000 + (initLoopPrevention "mybot").cooldownMs + 1)).shouldIgnore = false :=
  C4_cooldown_window (initLoopPrevention "mybot") "o/r#1" "e1" "e2" "alice" 1000
    (by decide) (by decide) (by decide)

/-- Claim C5.  Capacity behaviour of `markProcessed` (loop-prevention.ts
lines 66-77): (1) starting from an empty gate, marking maxTracked + 1
distinct event ids leaves exactly the last maxTracked of them tracked, in
insertion order, so the evicted id is exactly the first-inserted one;
(2) after every `markProcessed` call the tracked count is at most
maxTracked, whatever the prior state; (3) no id is removed while the tracked
set is within its capacity, so removal happens only by capacity: time is
not even an input of `markProcessed` or of the set it maintains. -/
theorem C5_capacity_eviction :
    (∀ (bot : String) (cd : Int) (mx : Nat) (ids : List String),
      ids.Nodup → ids.length = mx + 1 →
      (ids.foldl LoopPrevention.markProcessed (mkLoopPrevention bot cd mx)).processedEvents =
        ids.tail ∧
      (ids.foldl LoopPrevention.markProcessed
        (mkLoopPrevention bot cd mx)).processedEvents.length = mx) ∧
    (∀ (s : LoopPreventionState) (e : String),
      (LoopPrevention.markProcessed s e).processedEvents.length ≤ s.maxTracked) ∧
    (∀ (s : LoopPreventionState) (e : String),
      (LoopPrevention.setAdd s.processedEvents e).length ≤ s.maxTracked →
      (LoopPrevention.markProcessed s e).processedEvents =
        LoopPrevention.setAdd s.processedEvents e) := by
  refine ⟨?full, ?bound, ?noevict⟩
  case full =>
    intro bot cd mx ids hnodup hlen
    rcases List.eq_nil_or_concat ids with hnil | ⟨front, x, hconcat⟩
    · rw [hnil] at hlen
      simp at hlen
    · rw [List.concat_eq_append] at hconcat
      subst hconcat
      have hfrontlen : front.length = mx := by
        simp only [List.length_append, List.length_cons, List.length_nil] at hlen
        omega
      have hparts := List.nodup_append.mp hnodup
      have hx_not : x ∉ front := fun hxf => hparts.2.2 hxf (List.mem_singleton.mpr rfl)
      have hfold : front.foldl LoopPrevention.markProcessed (mkLoopPrevention bot cd mx) =
          { mkLoopPrevention bot cd mx with processedEvents := [] ++ front } := by
        apply foldl_markProcessed_fresh
        · intro y _
          simp [mkLoopPrevention]
        · exact hparts.1
        · simp [mkLoopPrevention]
          omega
      rw [List.foldl_append, hfold]
      simp only [List.foldl_cons, List.foldl_nil, List.nil_append]
      have hxc : front.contains x = false := by simpa using hx_not
      constructor
      · simp only [LoopPrevention.markProcessed, LoopPrevention.setAdd, hxc,
          Bool.false_eq_true, if_false]
        rw [if_pos (by simp [mkLoopPrevention, hfrontlen])]
        have hdrop1 : (front ++ [x]).length - mx = 1 := by
          simp only [List.length_append, List.length_cons, List.length_nil]
          omega
        rw [show ({ mkLoopPrevention bot cd mx with processedEvents := front } :
            LoopPreventionState).maxTracked = mx from rfl, hdrop1, List.drop_one]
      · simp only [LoopPrevention.markProcessed, LoopPrevention.setAdd, hxc,
          Bool.false_eq_true, if_false]
        rw [if_pos (by simp [mkLoopPrevention, hfrontlen])]
        rw [List.length_drop]
        simp only [List.length_append, List.length_cons, List.length_nil]
        rw [show ({ mkLoopPrevention bot cd mx with processedEvents := front } :
            LoopPreventionState).maxTracked = mx from rfl]
        omega
  case bound =>
    intro s e
    have hsetadd : (LoopPrevention.setAdd s.processedEvents e).length ≤
        s.processedEvents.length + 1 := by
      unfold LoopPrevention.setAdd
      split
      · omega
      · simp
    simp only [LoopPrevention.markProcessed]
    split
    · rw [List.length_drop]
      omega
    · next hlen => omega
  case noevict =>
    intro s e hc
    simp only [LoopPrevention.markProcessed]
    rw [if_neg]
    omega

theorem C5_capacity_eviction_witness :
    (["a", "b", "c"].foldl LoopPrevention.markProcessed
        (mkLoopPrevention "mybot" 30000 2)).processedEvents = ["a", "b", "c"].tail ∧
    (["a", "b", "c"].foldl LoopPrevention.markProcessed
        (mkLoopPrevention "mybot" 30000 2)).processedEvents.length = 2 :=
  C5_capacity_eviction.1 "mybot" 30000 2 ["a", "b", "c"] (by decide) (by decide)

/-- Claim C10.  `check` is read-only: its method-call form returns the state
it received for every state and arguments, whatever result it returns
(loop-prevention.ts lines 39-61 perform only `Set.has` and `Map.get`).
Consequently repeated checks against the same state keep allowing the
trigger: a check that passes at time t1 also passes at every later time t2
on the unchanged state, until `markProcessed` or `recordResponse` changes
the state. -/
theorem C10_check_is_read_only :
    (∀ (s : LoopPreventionState) (a k e : String) (t : Int),
      (LoopPrevention.checkM s a k e t).2 = s) ∧
    (∀ (s : LoopPreventionState) (a k e : String) (t1 t2 : Int), t1 ≤ t2 →
      (LoopPrevention.check s a k e t1).shouldIgnore = false →
      (LoopPrevention.check s a k e t2).shouldIgnore = false) := by
  constructor
  · intro s a k e t
    rfl
  · intro s a k e t1 t2 hle h
    unfold LoopPrevention.check at h ⊢
    by_cases hb : LoopPrevention.isBotUser s a = true
    · rw [if_pos hb] at h
      simp at h
    · rw [if_neg hb] at h ⊢
      by_cases hc : s.processedEvents.contains e = true
      · rw [if_pos hc] at h
        simp at h
      · rw [if_neg hc] at h ⊢
        cases hm : LoopPrevention.mapGet s.recentResponses k with
        | none =>
          rfl
        | some r =>
          rw [hm] at h
          have h2 : (if t1 - r.timestamp < s.cooldownMs then
              (⟨true, some LoopReason.recent_response⟩ : LoopCheckResult)
              else ⟨false, Option.none⟩).shouldIgnore = false := h
          show (if t2 - r.timestamp < s.cooldownMs then
              (⟨true, some LoopReason.recent_response⟩ : LoopCheckResult)
              else ⟨false, Option.none⟩).shouldIgnore = false
          by_cases hlt : t1 - r.timestamp < s.cooldownMs
          · rw [if_pos hlt] at h2
            simp at h2
          · rw [if_neg (show ¬ t2 - r.timestamp < s.cooldownMs by omega)]

theorem C10_check_is_read_only_witness :
    (LoopPrevention.checkM
        (LoopPrevention.recordResponse (initLoopPrevention "mybot") "o/r#1" "e1" 0)
        "alice" "o/r#1" "e2" 100).2 =
      LoopPrevention.recordResponse (initLoopPrevention "mybot") "o/r#1" "e1" 0 ∧
    (LoopPrevention.check
        (LoopPrevention.recordResponse (initLoopPrevention "mybot") "o/r#1" "e1" 0)
        "alice" "o/r#1" "e2" 40000).shouldIgnore = false :=
  ⟨C10_check_is_read_only.1
      (LoopPrevention.recordResponse (initLoopPrevention "mybot") "o/r#1" "e1" 0)
      "alice" "o/r#1" "e2" 100,
   C10_check_is_read_only.2
      (LoopPrevention.recordResponse (initLoopPrevention "mybot") "o/r#1" "e1" 0)
      "alice" "o/r#1" "e2" 30000 40000 (by decide) (by decide)⟩

theorem tcGet_eq_of_cacheGet_some (s : TokenCacheState) (k : Nat) (now : Int)
    (c : CachedToken) (hm : TokenCache.cacheGet s.cache k = some c) :
    TokenCache.get s k now =
      if c.expiresAt ≤ now + s.refreshMarginMs then
        (Option.none, { s with cache := TokenCache.cacheDelete s.cache k })
      else (some c.token, s) := by
  unfold TokenCache.get
  rw [hm]

/-- Claim C7, counterexample.  The claim states that after
`set(k, tok, now + margin + 1ms)` an immediate `get(k)` returns absent.  On
the code `get` evicts only when `expiresAt <= now + margin`
(token-cache.ts line 30); at expiry now + margin + 1 the strict general rule
stated by the same claim (`now + margin < expiresAt`) is satisfied and the
token is returned, so the concrete example contradicts the code. -/
theorem C7_counterexample_margin_plus_one :
    (TokenCache.get (TokenCache.set (initTokenCache defaultRefreshMarginMs) 1 "tok"
        (0 + defaultRefreshMarginMs + 1)) 1 0).1 = some "tok" := by
  decide

/-- Claim C7, amended.  With the failing example corrected to match the
strict comparison of the code: after `set(k, tok, expiresAt)`, `get(k)` at
time now returns the token exactly when now + margin < expiresAt (in
particular at expiresAt = now + margin + 1 it returns the token, and at
expiresAt = now + margin it returns absent); when now + margin is not
strictly below expiresAt the entry is evicted and absent is returned; and in
every state a returned credential always satisfies
now + margin < expiresAt, so a caller never observes a token within the
margin of expiring. -/
theorem C7_token_cache_amended :
    (∀ (s : TokenCacheState) (k : Nat) (tok : String) (e now : Int),
      ((TokenCache.get (TokenCache.set s k tok e) k now).1 = some tok ↔
        now + s.refreshMarginMs < e)) ∧
    (∀ (s : TokenCacheState) (k : Nat) (tok : String) (e now : Int),
      e ≤ now + s.refreshMarginMs →
      (TokenCache.get (TokenCache.set s k tok e) k now).1 = Option.none ∧
      TokenCache.cacheGet ((TokenCache.get (TokenCache.set s k tok e) k now).2).cache k =
        Option.none) ∧
    (∀ (s : TokenCacheState) (k : Nat) (now : Int) (t : String),
      (TokenCache.get s k now).1 = some t →
      ∃ c, TokenCache.cacheGet s.cache k = some c ∧ c.token = t ∧
        now + s.refreshMarginMs < c.expiresAt) := by
  refine ⟨?iff, ?evict, ?never⟩
  case iff =>
    intro s k tok e now
    rw [tcGet_eq_of_cacheGet_some (TokenCache.set s k tok e) k now ⟨tok, e⟩
      (cacheGet_cacheSet_self s.cache k ⟨tok, e⟩)]
    dsimp only [TokenCache.set]
    split_ifs with hle
    · simp
      omega
    · simp
      omega
  case evict =>
    intro s k tok e now hle
    rw [tcGet_eq_of_cacheGet_some (TokenCache.set s k tok e) k now ⟨tok, e⟩
      (cacheGet_cacheSet_self s.cache k ⟨tok, e⟩)]
    dsimp only [TokenCache.set]
    rw [if_pos hle]
    exact ⟨rfl, cacheGet_cacheDelete_self _ k⟩
  case never =>
    intro s k now t h
    cases hm : TokenCache.cacheGet s.cache k with
    | none =>
      unfold TokenCache.get at h
      rw [hm] at h
      simp at h
    | some c =>
      rw [tcGet_eq_of_cacheGet_some s k now c hm] at h
      by_cases hle : c.expiresAt ≤ now + s.refreshMarginMs
      · rw [if_pos hle] at h
        simp at h
      · rw [if_neg hle] at h
        refine ⟨c, rfl, ?_, ?_⟩
        · simpa using h
        · omega

theorem C7_token_cache_amended_witness :
    (TokenCache.get (TokenCache.set (initTokenCache 300000) 1 "tok" 300001) 1 0).1 =
      some "tok" ∧
    (TokenCache.get (TokenCache.set (initTokenCache 300000) 1 "tok" 300000) 1 0).1 =
      Option.none :=
  ⟨(C7_token_cache_amended.1 (initTokenCache 300000) 1 "tok" 300001 0).mpr (by decide),
   ((C7_token_cache_amended.2.1 (initTokenCache 300000) 1 "tok" 300000 0) (by decide)).1⟩

/-- Claim C9.  When the analysis call of a trigger rejects, the trigger is
abandoned with no partial external side effects: on both paths the full
observable behaviour is exactly one markProcessed, exactly one analysis
call and the catch-block log -- no addLabels call, no createComment call
and no recordResponse -- and the tracking state changes only by the
markProcessed that preceded the analysis call (handler.ts lines 248-253 and
307-312).  Nothing is retried: the trace holds a single analyzeCall. -/
theorem C9_analysis_failure_no_side_effects (s : LoopPreventionState) (cfg : RepoConfig)
    (collab : Collaborators) (fullName : String) (n : Nat) (e : String) (now : Int)
    (hfail : collab.analyzeIssue = Outcome.fail) :
    processIssue s cfg collab fullName n e now =
      ([HandlerEvent.markProcessedEv e, HandlerEvent.analyzeCall, HandlerEvent.logError],
       LoopPrevention.markProcessed s e) ∧
    processIssueWithConversation s cfg collab fullName n e now =
      ([HandlerEvent.markProcessedEv e, HandlerEvent.analyzeCall, HandlerEvent.logError],
       LoopPrevention.markProcessed s e) := by
  constructor
  · simp [processIssue, hfail]
  · simp [processIssueWithConversation, hfail]

theorem C9_analysis_failure_no_side_effects_witness :
    processIssue (initLoopPrevention "mybot") ⟨true, true, true⟩
      ⟨Outcome.fail, Outcome.ok (), Outcome.ok 7⟩ "o/r" 1 "ev1" 0 =
      ([HandlerEvent.markProcessedEv "ev1", HandlerEvent.analyzeCall, HandlerEvent.logError],
       LoopPrevention.markProcessed (initLoopPrevention "mybot") "ev1") :=
  (C9_analysis_failure_no_side_effects (initLoopPrevention "mybot") ⟨true, true, true⟩
    ⟨Outcome.fail, Outcome.ok (), Outcome.ok 7⟩ "o/r" 1 "ev1" 0 rfl).1

/-- Claim C6.  Every trigger that posts a response comment records the
response before the handler returns, under the composite key of the issue:
on the new-issue path, whenever a comment was posted and the call fulfilled
(handler.ts lines 235-247); on the comment-mention path unconditionally
after a fulfilled post (handler.ts lines 295-306); moreover the
comment-mention path posts its comment whenever the analysis fulfils,
regardless of the repo config -- `processIssueWithConversation` never reads
it, so its whole behaviour is independent of the autoRespond toggle. -/
theorem C6_responded_implies_recorded (s : LoopPreventionState) (cfg : RepoConfig)
    (collab : Collaborators) (fullName : String) (n : Nat) (e : String) (now : Int) :
    ((∃ b, HandlerEvent.createCommentCall b ∈ (processIssue s cfg collab fullName n e now).1) →
      (∃ cid, collab.createComment = Outcome.ok cid) →
      HandlerEvent.recordResponseEv (fullName ++ "#" ++ toString n) ∈
        (processIssue s cfg collab fullName n e now).1) ∧
    ((∃ b, HandlerEvent.createCommentCall b ∈
        (processIssueWithConversation s cfg collab fullName n e now).1) →
      (∃ cid, collab.createComment = Outcome.ok cid) →
      HandlerEvent.recordResponseEv (fullName ++ "#" ++ toString n) ∈
        (processIssueWithConversation s cfg collab fullName n e now).1) ∧
    (∀ an, collab.analyzeIssue = Outcome.ok an →
      HandlerEvent.createCommentCall an.response ∈
        (processIssueWithConversation s cfg collab fullName n e now).1) ∧
    (∀ cfg', processIssueWithConversation s cfg collab fullName n e now =
      processIssueWithConversation s cfg' collab fullName n e now) := by
  obtain ⟨an, al, cc⟩ := collab
  refine ⟨?p1, ?p2, ?p3, ?p4⟩
  case p1 =>
    rintro ⟨b, hb⟩ ⟨cid, hcid⟩
    cases hcid
    cases an with
    | fail => simp [processIssue] at hb
    | ok a =>
      cases al with
      | ok u =>
        simp only [processIssue] at hb ⊢
        split_ifs at hb ⊢ <;> simp_all
      | fail =>
        simp only [processIssue] at hb ⊢
        split_ifs at hb ⊢ <;> simp_all
  case p2 =>
    rintro ⟨b, hb⟩ ⟨cid, hcid⟩
    cases hcid
    cases an with
    | fail => simp [processIssueWithConversation] at hb
    | ok a =>
      simp [processIssueWithConversation] at hb ⊢
  case p3 =>
    intro an2 han
    cases han
    cases cc with
    | ok cid => simp [processIssueWithConversation]
    | fail => simp [processIssueWithConversation]
  case p4 =>
    intro cfg'
    rfl

theorem C6_responded_implies_recorded_witness :
    HandlerEvent.recordResponseEv ("o/r" ++ "#" ++ toString 1) ∈
      (processIssue (initLoopPrevention "mybot") ⟨true, true, true⟩
        ⟨Outcome.ok ⟨["bug"], "ack"⟩, Outcome.ok (), Outcome.ok 7⟩ "o/r" 1 "ev1" 0).1 ∧
    HandlerEvent.recordResponseEv ("o/r" ++ "#" ++ toString 1) ∈
      (processIssueWithConversation (initLoopPrevention "mybot") ⟨true, true, false⟩
        ⟨Outcome.ok ⟨[], "ack"⟩, Outcome.ok (), Outcome.ok 7⟩ "o/r" 1 "ev1" 0).1 ∧
    HandlerEvent.createCommentCall "ack" ∈
      (processIssueWithConversation (initLoopPrevention "mybot") ⟨true, true, false⟩
        ⟨Outcome.ok ⟨[], "ack"⟩, Outcome.ok (), Outcome.ok 7⟩ "o/r" 1 "ev1" 0).1 :=
  ⟨(C6_responded_implies_recorded (initLoopPrevention "mybot") ⟨true, true, true⟩
      ⟨Outcome.ok ⟨["bug"], "ack"⟩, Outcome.ok (), Outcome.ok 7⟩ "o/r" 1 "ev1" 0).1
      ⟨"ack", by decide⟩ ⟨7, rfl⟩,
   (C6_responded_implies_recorded (initLoopPrevention "mybot") ⟨true, true, false⟩
      ⟨Outcome.ok ⟨[], "ack"⟩, Outcome.ok (), Outcome.ok 7⟩ "o/r" 1 "ev1" 0).2.1
      ⟨"ack", by decide⟩ ⟨7, rfl⟩,
   (C6_responded_implies_recorded (initLoopPrevention "mybot") ⟨true, true, false⟩
      ⟨Outcome.ok ⟨[], "ack"⟩, Outcome.ok (), Outcome.ok 7⟩ "o/r" 1 "ev1" 0).2.2.1
      ⟨[], "ack"⟩ rfl⟩
